import Mathlib

/-!
Shallow embedding of the SSH monitor dashboard's core pipeline
(`src/app.py`): the log parser `parse_ssh_log` (classifier, field
extractors, line filter), the loader `load_data`, and the aggregation
functions `get_top_ips` and `get_temporal_evolution`, together with
theorems settling the specification claims.

Lines are modelled as `List Char`; the regular expressions of the source
are modelled pattern-by-pattern as executable matchers with Python
`re.search` semantics (leftmost match, greedy quantifiers with
backtracking, `re.IGNORECASE` modelled as ASCII case folding).
-/

namespace SSHMonitor

/-- ASCII lower-casing, modelling `str.lower` / `re.IGNORECASE` on the
ASCII characters that occur in the source's patterns. -/
def lowerChar (c : Char) : Char :=
  if 'A' ≤ c ∧ c ≤ 'Z' then Char.ofNat (c.toNat + 32) else c

/-- Case-insensitive character comparison (pattern char vs subject char). -/
def chEqCI (p c : Char) : Bool :=
  lowerChar p == lowerChar c

/-- `\w` of Python `re` restricted to ASCII: letters, digits, underscore. -/
def isWordChar (c : Char) : Bool :=
  c.isAlpha || c.isDigit || c == '_'

/-- ASCII whitespace as recognised by Python's `str.strip` and `\s`. -/
def isPySpace (c : Char) : Bool :=
  c == ' ' || c == '\t' || c == '\n' || c == '\r' || c == '\x0b' || c == '\x0c'

/-- Does `pat` match a prefix of `s`, matching characters with `eq`? -/
def litPrefix (eq : Char → Char → Bool) : List Char → List Char → Bool
  | [], _ => true
  | _ :: _, [] => false
  | p :: ps, c :: cs => eq p c && litPrefix eq ps cs

/-- Does `pat` match `s` at position `i` (case-insensitively)? -/
def litAt (pat s : List Char) (i : Nat) : Bool :=
  litPrefix chEqCI pat (s.drop i)

/-- Does `pat` match `s` at position `i`, comparing characters exactly? -/
def litAtExact (pat s : List Char) (i : Nat) : Bool :=
  litPrefix (· == ·) pat (s.drop i)

/-- `re.search` of a literal pattern: does `pat` occur anywhere in `s`
(case-insensitively)? -/
def containsCI (pat s : List Char) : Bool :=
  (List.range (s.length + 1)).any (fun i => litAt pat s i)

/-- Does `pat` occur anywhere in `s`, comparing characters exactly
(Python's `pat in s`)? -/
def containsExact (pat s : List Char) : Bool :=
  (List.range (s.length + 1)).any (fun i => litAtExact pat s i)

/-- Length of the maximal run of characters satisfying `p` at the front. -/
def runLenFrom (p : Char → Bool) : List Char → Nat
  | [] => 0
  | c :: cs => if p c then runLenFrom p cs + 1 else 0

/-- Length of the maximal run of characters satisfying `p` at position `i`. -/
def runLenAt (p : Char → Bool) (s : List Char) (i : Nat) : Nat :=
  runLenFrom p (s.drop i)

/-- The character of `s` at position `i`, or a space when out of range
(used only where a specific non-space character is then required). -/
def charAt (s : List Char) (i : Nat) : Char :=
  s.getD i ' '

def str (s : String) : List Char := s.data

/-! ## Event classifier

`parse_ssh_log` holds an insertion-ordered dict of
`(event-code, regex)` rules and assigns the first rule whose pattern
`re.search`-matches the line (with `re.IGNORECASE`); the fallback code is
`"E0"`.  Each pattern is modelled by a dedicated matcher below, in the
exact dict order E27, E13, E12, E21, E19, E20, E10, E9, E2, E5, E17,
E18, E24, E14. -/

/-- `r'POSSIBLE BREAK-IN ATTEMPT'` -/
def matchE27 (s : List Char) : Bool :=
  containsCI (str "POSSIBLE BREAK-IN ATTEMPT") s

/-- Matcher for patterns of shape `pre(\w+) from`: at some position the
literal `pre` matches, followed by a maximal nonempty run of word
characters, followed by the literal `" from"` (greedy `\w+` cannot
backtrack into `" from"` because a space is not a word character). -/
def matchWordFrom (pre : List Char) (s : List Char) : Bool :=
  (List.range (s.length + 1)).any (fun i =>
    litAt pre s i &&
    (let j := i + pre.length
     let w := runLenAt isWordChar s j
     decide (1 ≤ w) && litAt (str " from") s (j + w)))

/-- `r'Invalid user (\w+) from'` (classification only uses the boolean). -/
def matchE13 (s : List Char) : Bool :=
  matchWordFrom (str "Invalid user ") s

/-- `r'input_userauth_request: invalid user'` -/
def matchE12 (s : List Char) : Bool :=
  containsCI (str "input_userauth_request: invalid user") s

/-- `r'pam_unix\(sshd:auth\): check pass; user unknown'` -/
def matchE21 (s : List Char) : Bool :=
  containsCI (str "pam_unix(sshd:auth): check pass; user unknown") s

/-- `r'pam_unix\(sshd:auth\): authentication failure'` -/
def matchE19 (s : List Char) : Bool :=
  containsCI (str "pam_unix(sshd:auth): authentication failure") s

/-- `r'pam_unix\(sshd:auth\): authentication failure.*root'`: the E19
literal at some position `i`, then `root` at some later position with no
newline in between (`.` does not match a newline). -/
def matchE20 (s : List Char) : Bool :=
  (List.range (s.length + 1)).any (fun i =>
    litAt (str "pam_unix(sshd:auth): authentication failure") s i &&
    (let j := i + (str "pam_unix(sshd:auth): authentication failure").length
     let tail := s.drop j
     (List.range (tail.length + 1)).any (fun k =>
       (tail.take k).all (fun c => c != '\n') && litAt (str "root") tail k)))

/-- `r'Failed password for invalid user'` -/
def matchE10 (s : List Char) : Bool :=
  containsCI (str "Failed password for invalid user") s

/-- `r'Failed password for root'` -/
def matchE9 (s : List Char) : Bool :=
  containsCI (str "Failed password for root") s

/-- `r'Connection closed by'` -/
def matchE2 (s : List Char) : Bool :=
  containsCI (str "Connection closed by") s

/-- `r'Too many authentication failures'` -/
def matchE5 (s : List Char) : Bool :=
  containsCI (str "Too many authentication failures") s

/-- `r'PAM \d+ more authentication failures'`: the literal `PAM `,
a maximal nonempty digit run, then `" more authentication failures"`. -/
def matchE17 (s : List Char) : Bool :=
  (List.range (s.length + 1)).any (fun i =>
    litAt (str "PAM ") s i &&
    (let j := i + 4
     let d := runLenAt Char.isDigit s j
     decide (1 ≤ d) && litAt (str " more authentication failures") s (j + d)))

/-- `r'PAM service\(sshd\) ignoring max retries'` -/
def matchE18 (s : List Char) : Bool :=
  containsCI (str "PAM service(sshd) ignoring max retries") s

/-- `r'Received disconnect from'` -/
def matchE24 (s : List Char) : Bool :=
  containsCI (str "Received disconnect from") s

/-- `r'message repeated'` -/
def matchE14 (s : List Char) : Bool :=
  containsCI (str "message repeated") s

/-- The classifier loop of `parse_ssh_log`: iterate the rules in dict
order, first match wins, fallback `"E0"`. -/
def classify (s : List Char) : String :=
  if matchE27 s then "E27"
  else if matchE13 s then "E13"
  else if matchE12 s then "E12"
  else if matchE21 s then "E21"
  else if matchE19 s then "E19"
  else if matchE20 s then "E20"
  else if matchE10 s then "E10"
  else if matchE9 s then "E9"
  else if matchE2 s then "E2"
  else if matchE5 s then "E5"
  else if matchE17 s then "E17"
  else if matchE18 s then "E18"
  else if matchE24 s then "E24"
  else if matchE14 s then "E14"
  else "E0"

/-! ## Field extractor: source address

`ip_pattern = r'(\d{1,3}\.\d{1,3}\.\d{1,3}\.\d{1,3})'`, searched with
`re.search` (leftmost match wins, each `\d{1,3}` greedy with
backtracking), stored as-is with no range or word-boundary check;
sentinel `'None'` when no match. -/

/-- Match one `\d{1,3}\.` group of the dotted-quad pattern at position
`i`, trying 3, 2, then 1 digits (greedy with backtracking), and continue
with `cont` after the dot. Returns the end position of the full match. -/
def groupDot (s : List Char) (i : Nat) (cont : Nat → Option Nat) : Option Nat :=
  let r := runLenAt Char.isDigit s i
  let tryLen : Nat → Option Nat := fun m =>
    if m ≤ r ∧ charAt s (i + m) == '.' then cont (i + m + 1) else none
  ((tryLen 3).orElse (fun _ => tryLen 2)).orElse (fun _ => tryLen 1)

/-- The final `\d{1,3}` group: greedily take up to three digits. -/
def lastGroup (s : List Char) (i : Nat) : Option Nat :=
  let r := runLenAt Char.isDigit s i
  if 1 ≤ r then some (i + min r 3) else none

/-- End position of a dotted-quad match starting exactly at `i`. -/
def quadEnd (s : List Char) (i : Nat) : Option Nat :=
  groupDot s i (fun i2 =>
    groupDot s i2 (fun i3 =>
      groupDot s i3 (fun i4 => lastGroup s i4)))

/-- `re.search(ip_pattern, line)`: the leftmost dotted-quad substring, or
the sentinel `"None"` when none occurs. -/
def extractIP (s : List Char) : String :=
  match (List.range (s.length + 1)).findSome?
      (fun i => (quadEnd s i).map (fun e => (s.drop i).take (e - i))) with
  | some cs => String.mk cs
  | none => "None"

/-! ## Field extractor: user

`user_patterns`, tried in order with `re.IGNORECASE`, first match wins,
sentinel `'None'`:
  1. `r'Invalid user (\w+) from'`
  2. `r'Failed password for invalid user (\w+) from'`
  3. `r'Failed password for (\w+) from'`
  4. `r'user[=: ]+(\w+)'`
  5. `r'Accepted password for (\w+) from'` -/

/-- Capture group of a `pre(\w+) from` pattern: at the leftmost position
where `pre` matches followed by a maximal nonempty word-character run
followed by `" from"`, return that run. -/
def extractWordFrom (pre : List Char) (s : List Char) : Option (List Char) :=
  (List.range (s.length + 1)).findSome? (fun i =>
    if litAt pre s i then
      let j := i + pre.length
      let w := runLenAt isWordChar s j
      if 1 ≤ w ∧ litAt (str " from") s (j + w) then
        some ((s.drop j).take w)
      else none
    else none)

/-- Is `c` one of the separator characters of `r'user[=: ]+'`? -/
def isSepChar (c : Char) : Bool :=
  c == '=' || c == ':' || c == ' '

/-- Capture group of `r'user[=: ]+(\w+)'`: at the leftmost position where
`user` matches followed by a maximal nonempty separator run followed by a
nonempty word-character run, return that run (a separator is not a word
character, so the greedy `[=: ]+` cannot backtrack successfully). -/
def extractUserSep (s : List Char) : Option (List Char) :=
  (List.range (s.length + 1)).findSome? (fun i =>
    if litAt (str "user") s i then
      let j := i + 4
      let m := runLenAt isSepChar s j
      let w := runLenAt isWordChar s (j + m)
      if 1 ≤ m ∧ 1 ≤ w then some ((s.drop (j + m)).take w) else none
    else none)

/-- The user-extraction loop of `parse_ssh_log`. -/
def extractUser (s : List Char) : String :=
  match extractWordFrom (str "Invalid user ") s with
  | some u => String.mk u
  | none =>
    match extractWordFrom (str "Failed password for invalid user ") s with
    | some u => String.mk u
    | none =>
      match extractWordFrom (str "Failed password for ") s with
      | some u => String.mk u
      | none =>
        match extractUserSep s with
        | some u => String.mk u
        | none =>
          match extractWordFrom (str "Accepted password for ") s with
          | some u => String.mk u
          | none => "None"

/-! ## Field extractor: timestamp

`timestamp_pattern = r'^([A-Za-z]{3}\s+\d{1,2}\s+\d{2}:\d{2}:\d{2})'`,
anchored at the start of the (unstripped) line; sentinel `'None'` when it
does not match. -/

/-- Is `c` an ASCII letter? (`[A-Za-z]`) -/
def isAsciiLetter (c : Char) : Bool :=
  ('A' ≤ c ∧ c ≤ 'Z') || ('a' ≤ c ∧ c ≤ 'z')

/-- End position of the anchored timestamp match: three letters, a
nonempty whitespace run, one or two digits (a longer digit run cannot
match, since `\s+` cannot start with a digit), a nonempty whitespace run,
then `\d{2}:\d{2}:\d{2}`. -/
def timestampEnd (s : List Char) : Option Nat :=
  if (List.range 3).all (fun k => isAsciiLetter (charAt s k)) then
    let w1 := runLenAt isPySpace s 3
    let j := 3 + w1
    let d := runLenAt Char.isDigit s j
    if 1 ≤ w1 ∧ 1 ≤ d ∧ d ≤ 2 then
      let w2 := runLenAt isPySpace s (j + d)
      let t := j + d + w2
      if 1 ≤ w2 ∧
          (Char.isDigit (charAt s t) ∧ Char.isDigit (charAt s (t + 1)) ∧
           charAt s (t + 2) == ':' ∧
           Char.isDigit (charAt s (t + 3)) ∧ Char.isDigit (charAt s (t + 4)) ∧
           charAt s (t + 5) == ':' ∧
           Char.isDigit (charAt s (t + 6)) ∧ Char.isDigit (charAt s (t + 7))) then
        some (t + 8)
      else none
    else none
  else none

/-- `re.search(timestamp_pattern, line)`: the captured prefix, or the
sentinel `"None"`. -/
def extractTimestamp (s : List Char) : String :=
  match timestampEnd s with
  | some e => String.mk (s.take e)
  | none => "None"

/-! ## Log parser -/

/-- Python's `str.strip()` restricted to ASCII whitespace. -/
def pyStrip (s : List Char) : List Char :=
  ((s.dropWhile isPySpace).reverse.dropWhile isPySpace).reverse

/-- Python's `str.split(sep)` for a one-character separator (an empty
string yields one empty part). -/
def splitOnChar (sep : Char) : List Char → List (List Char)
  | [] => [[]]
  | c :: rest =>
    if c = sep then [] :: splitOnChar sep rest
    else
      match splitOnChar sep rest with
      | l :: ls => (c :: l) :: ls
      | [] => [[c]]

/-- Python's `str.split('\n')`. -/
def splitLines (s : List Char) : List (List Char) :=
  splitOnChar '\n' s

/-- One parsed record, as produced by `parse_ssh_log` (all fields are the
strings stored in the DataFrame row). -/
structure Event where
  timestamp : String
  eventId : String
  sourceIP : String
  user : String
  rawMessage : String
deriving DecidableEq, Repr

/-- The per-line body of `parse_ssh_log`'s loop: skip the line when it is
blank after stripping or does not contain `sshd` case-insensitively;
otherwise build the record. -/
def parseLine (line : List Char) : Option Event :=
  if (pyStrip line).isEmpty || !containsCI (str "sshd") line then
    none
  else
    some { timestamp := extractTimestamp line
           eventId := classify line
           sourceIP := extractIP line
           user := extractUser line
           rawMessage := String.mk (pyStrip line) }

/-- `parse_ssh_log`: split the blob on newlines and collect the records
of the relevant lines, in input order. -/
def parse_ssh_log (content : String) : List Event :=
  (splitLines content.data).filterMap parseLine

/-! ## Record store / loader

`load_data` reads `datasetssh.csv`, converts the `Timestamp` column with
`pd.to_datetime(format='%b %d %H:%M:%S')` (which raises on the first
unparseable value; `strptime` defaults the year to 1900 and validates the
day against that year's calendar), rewrites the year of every timestamp
to 2024, and sorts by `Timestamp` with `DataFrame.sort_values` (default
`kind='quicksort'`).  `FileNotFoundError` and all other exceptions are
caught and turned into an error display plus a `None` return. -/

/-- A point in time to second precision. -/
structure DateTime where
  year : Nat
  month : Nat
  day : Nat
  hour : Nat
  minute : Nat
  second : Nat
deriving DecidableEq, Repr

/-- Mixed-radix key giving the chronological order of `DateTime`s with
in-range components (month ≤ 12, day ≤ 31, hour < 24, minute < 60,
second < 60): the order `datetime64` comparison uses. -/
def dtKey (d : DateTime) : Nat :=
  ((((d.year * 13 + d.month) * 32 + d.day) * 24 + d.hour) * 60 + d.minute) * 60
    + d.second

/-- `x.replace(year := y)` of the loader's year-rewriting lambda. -/
def replaceYear (y : Nat) (d : DateTime) : DateTime :=
  { d with year := y }

/-- Month number of a `%b` abbreviation (case-insensitive). -/
def monthNum (a b c : Char) : Option Nat :=
  match String.mk [lowerChar a, lowerChar b, lowerChar c] with
  | "jan" => some 1
  | "feb" => some 2
  | "mar" => some 3
  | "apr" => some 4
  | "may" => some 5
  | "jun" => some 6
  | "jul" => some 7
  | "aug" => some 8
  | "sep" => some 9
  | "oct" => some 10
  | "nov" => some 11
  | "dec" => some 12
  | _ => none

/-- Days in each month of 1900 (the `strptime` default year, not a leap
year), used by the datetime constructor's day validation. -/
def daysInMonth1900 (m : Nat) : Nat :=
  [31, 28, 31, 30, 31, 30, 31, 31, 30, 31, 30, 31].getD (m - 1) 0

/-- Numeric value of a digit run. -/
def digitsVal (cs : List Char) : Nat :=
  cs.foldl (fun a c => 10 * a + (c.toNat - '0'.toNat)) 0

/-- A 1-or-2-digit numeric field (`\d{1,2}`, as `strptime` compiles
`%d`/`%H`/`%M`/`%S`): the maximal digit run when it has length 1 or 2
(a longer run cannot match, because the field is followed by a
non-digit or the end of the string). Returns (value, end position). -/
def digits12 (s : List Char) (i : Nat) : Option (Nat × Nat) :=
  let r := runLenAt Char.isDigit s i
  if 1 ≤ r ∧ r ≤ 2 then some (digitsVal ((s.drop i).take r), i + r) else none

/-- `pd.to_datetime(value, format='%b %d %H:%M:%S')` on one stored
timestamp string: month abbreviation, whitespace, day, whitespace,
`H:M:S`; the whole string must be consumed; the day is validated against
the default year 1900 and the time fields against their ranges.
Produces a year-1900 `DateTime` or fails. -/
def parseStoredTimestamp (s : List Char) : Option DateTime :=
  match monthNum (charAt s 0) (charAt s 1) (charAt s 2) with
  | none => none
  | some mo =>
    if 3 ≤ s.length then
      let w1 := runLenAt isPySpace s 3
      match digits12 s (3 + w1) with
      | none => none
      | some (day, j) =>
        let w2 := runLenAt isPySpace s j
        match digits12 s (j + w2) with
        | none => none
        | some (hh, j2) =>
          if charAt s j2 == ':' then
            match digits12 s (j2 + 1) with
            | none => none
            | some (mm, j3) =>
              if charAt s j3 == ':' then
                match digits12 s (j3 + 1) with
                | none => none
                | some (ss, j4) =>
                  if 1 ≤ w1 ∧ 1 ≤ w2 ∧ j4 = s.length ∧
                      1 ≤ day ∧ day ≤ daysInMonth1900 mo ∧
                      hh < 24 ∧ mm < 60 ∧ ss < 60 then
                    some ⟨1900, mo, day, hh, mm, ss⟩
                  else none
              else none
          else none
    else none

/-- One loaded record: the parsed row with its `Timestamp` converted to a
`DateTime`. -/
structure LoadedEvent where
  timestamp : DateTime
  eventId : String
  sourceIP : String
  user : String
  rawMessage : String
deriving DecidableEq, Repr

/-- `pd.to_datetime` over the whole `Timestamp` column: raises (here: an
error value naming the offending text) on the first unparseable value. -/
def toDatetimeAll : List Event → Except String (List LoadedEvent)
  | [] => .ok []
  | r :: rs =>
    match parseStoredTimestamp r.timestamp.data with
    | none => .error (String.append "time data does not match format: " r.timestamp)
    | some dt =>
      match toDatetimeAll rs with
      | .error m => .error m
      | .ok es =>
        .ok ({ timestamp := dt, eventId := r.eventId, sourceIP := r.sourceIP,
               user := r.user, rawMessage := r.rawMessage } :: es)

/-! ### The sort behind `DataFrame.sort_values` (default kind)

`df.sort_values('Timestamp')` with the default `kind='quicksort'` argsorts
the column with numpy's portable indirect introsort
(`aquicksort_` / `aheapsort_` of `numpy/core/src/npysort/quicksort.c.src`):
median-of-three quicksort on an index array, switching to an indirect
insertion sort for partitions of at most `SMALL_QUICKSORT = 15` elements
and to an indirect heapsort past the depth limit `2*floor(log2 n)`.  It
is modelled here step for step (with fuel, which is never exhausted on
the inputs evaluated).  This sort is not stable. -/

/-- `INTP_SWAP` on the index array. -/
def intpSwap (t : Array Nat) (i j : Nat) : Array Nat :=
  let vi := t.getD i 0
  let vj := t.getD j 0
  (t.setD i vj).setD j vi

/-- Value looked at through the index array: `v[t[i]]`. -/
def vAt (v t : Array Nat) (i : Nat) : Nat :=
  v.getD (t.getD i 0) 0

/-- `do ++pi; while (v[*pi] < vp)`. -/
def scanUp (v t : Array Nat) (vp pi : Nat) : Nat → Nat
  | 0 => pi + 1
  | fuel + 1 =>
    if vAt v t (pi + 1) < vp then scanUp v t vp (pi + 1) fuel else pi + 1

/-- `do --pj; while (vp < v[*pj])`. -/
def scanDown (v t : Array Nat) (vp pj : Nat) : Nat → Nat
  | 0 => pj - 1
  | fuel + 1 =>
    if vp < vAt v t (pj - 1) then scanDown v t vp (pj - 1) fuel else pj - 1

/-- The partition exchange loop of `aquicksort_`. -/
def partLoop (v : Array Nat) (t : Array Nat) (vp pi pj : Nat) :
    Nat → Array Nat × Nat
  | 0 => (t, pi)
  | fuel + 1 =>
    let pi' := scanUp v t vp pi (t.size + 1)
    let pj' := scanDown v t vp pj (t.size + 1)
    if pi' ≥ pj' then (t, pi')
    else partLoop v (intpSwap t pi' pj') vp pi' pj' fuel

/-- One median-of-three partition round of `aquicksort_` on `[pl, pr]`;
returns the array and the final pivot position `pi`. -/
def partitionStep (v : Array Nat) (t : Array Nat) (pl pr : Nat) :
    Array Nat × Nat :=
  let pm := pl + ((pr - pl) >>> 1)
  let t := if vAt v t pm < vAt v t pl then intpSwap t pm pl else t
  let t := if vAt v t pr < vAt v t pm then intpSwap t pr pm else t
  let t := if vAt v t pm < vAt v t pl then intpSwap t pm pl else t
  let vp := vAt v t pm
  let t := intpSwap t pm (pr - 1)
  let (t, pi) := partLoop v t vp pl (pr - 1) (pr + 2 - pl)
  (intpSwap t pi (pr - 1), pi)

/-- The inner shift loop of the indirect insertion sort:
`while (pj > pl && vp < v[*pk]) *pj-- = *pk--;`. -/
def insShift (v : Array Nat) (t : Array Nat) (vp pl pj : Nat) :
    Nat → Array Nat × Nat
  | 0 => (t, pj)
  | fuel + 1 =>
    if pl < pj ∧ vp < vAt v t (pj - 1) then
      insShift v (t.setD pj (t.getD (pj - 1) 0)) vp pl (pj - 1) fuel
    else (t, pj)

/-- The indirect insertion sort of `aquicksort_` over `[pl, pr]`. -/
def insLoop (v : Array Nat) (t : Array Nat) (pl pr pi : Nat) :
    Nat → Array Nat
  | 0 => t
  | fuel + 1 =>
    if pi ≤ pr then
      let vi := t.getD pi 0
      let vp := v.getD vi 0
      let (t, pj) := insShift v t vp pl pi (pi + 1)
      insLoop v (t.setD pj vi) pl pr (pi + 1) fuel
    else t

/-- 1-based read `a[k]` of `aheapsort_` on the subarray starting at
`base` (`a = tosort - 1`). -/
def aGet (t : Array Nat) (base k : Nat) : Nat :=
  t.getD (base + k - 1) 0

/-- 1-based write `a[k] = x` of `aheapsort_`. -/
def aSet (t : Array Nat) (base k x : Nat) : Array Nat :=
  t.setD (base + k - 1) x

/-- The sift-down loop shared by both phases of `aheapsort_`; returns the
array and the final hole position `i` (the caller writes `a[i] = tmp`). -/
def siftDown (v : Array Nat) (t : Array Nat) (base tmp i j n : Nat) :
    Nat → Array Nat × Nat
  | 0 => (t, i)
  | fuel + 1 =>
    if j ≤ n then
      let j := if j < n ∧ vAt' v t base j < vAt' v t base (j + 1) then j + 1 else j
      if v.getD tmp 0 < vAt' v t base j then
        siftDown v (aSet t base i (aGet t base j)) base tmp j (j + j) n fuel
      else (t, i)
    else (t, i)
where
  /-- `v[a[k]]`. -/
  vAt' (v t : Array Nat) (base k : Nat) : Nat := v.getD (aGet t base k) 0

/-- Heap construction phase of `aheapsort_` (`l` from `n >> 1` down to 1). -/
def heapPhase1 (v : Array Nat) (t : Array Nat) (base n l : Nat) :
    Nat → Array Nat
  | 0 => t
  | fuel + 1 =>
    if 1 ≤ l then
      let tmp := aGet t base l
      let (t, i) := siftDown v t base tmp l (2 * l) n (n + 2)
      heapPhase1 v (aSet t base i tmp) base n (l - 1) fuel
    else t

/-- Extraction phase of `aheapsort_` (`n` down to 2). -/
def heapPhase2 (v : Array Nat) (t : Array Nat) (base n : Nat) :
    Nat → Array Nat
  | 0 => t
  | fuel + 1 =>
    if 2 ≤ n then
      let tmp := aGet t base n
      let t := aSet t base n (aGet t base 1)
      let n := n - 1
      let (t, i) := siftDown v t base tmp 1 2 n (n + 2)
      heapPhase2 v (aSet t base i tmp) base n fuel
    else t

/-- `aheapsort_` on the `num`-element subarray starting at `base`. -/
def aheapsort (v : Array Nat) (t : Array Nat) (base num : Nat) : Array Nat :=
  heapPhase2 v (heapPhase1 v t base num (num >>> 1) (num + 1)) base num (num + 1)

/-- `SMALL_QUICKSORT` of npysort. -/
def smallQuicksort : Nat := 15

/-- The driver loop of `aquicksort_`: explicit segment stack, depth-limit
switch to heapsort, insertion sort for small segments. -/
def qsOuter (v : Array Nat) (t : Array Nat) (pl pr : Nat)
    (stack : List (Nat × Nat)) (depth : Int) : Nat → Array Nat
  | 0 => t
  | fuel + 1 =>
    if pr - pl > smallQuicksort then
      if depth < 0 then
        let t := aheapsort v t pl (pr - pl + 1)
        match stack with
        | [] => t
        | (pl', pr') :: st => qsOuter v t pl' pr' st depth fuel
      else
        let (t, pi) := partitionStep v t pl pr
        if pi - pl < pr - pi then
          qsOuter v t pl (pi - 1) ((pi + 1, pr) :: stack) (depth - 1) fuel
        else
          qsOuter v t (pi + 1) pr ((pl, pi - 1) :: stack) (depth - 1) fuel
    else
      let t := insLoop v t pl pr (pl + 1) (pr + 2 - pl)
      match stack with
      | [] => t
      | (pl', pr') :: st => qsOuter v t pl' pr' st depth fuel

/-- `npy_get_msb`. -/
def npyGetMsb (n : Nat) : Nat := Nat.log2 n

/-- `np.argsort(values, kind='quicksort')` (the portable path): the index
permutation produced by numpy's indirect introsort. -/
def npArgsort (vals : List Nat) : List Nat :=
  let n := vals.length
  if n = 0 then []
  else
    let v : Array Nat := vals.toArray
    let t : Array Nat := (List.range n).toArray
    (qsOuter v t 0 (n - 1) [] (2 * npyGetMsb n) ((n + 16) * (n + 16))).toList

/-- `df.sort_values('Timestamp')` via `nargsort`: reorder the records by
the argsort of their timestamp keys. -/
def sortByTimestamp (evs : List LoadedEvent) : List LoadedEvent :=
  (npArgsort (evs.map (fun e => dtKey e.timestamp))).filterMap (fun i => evs[i]?)

/-- The state of the persisted record source as `load_data` encounters
it: the file can be missing (`FileNotFoundError`), structurally unreadable
(`pd.read_csv` raises), or a readable table of rows. -/
inductive CsvSource where
  | missing
  | unreadable (msg : String)
  | table (rows : List Event)

/-- What `load_data` hands its caller: a loaded record set, or one of the
two failure signals (an error display plus a `None` return — never an
uncaught exception). -/
inductive LoadResult where
  | ok (events : List LoadedEvent)
  | sourceNotFound (msg : String)
  | loadFailed (msg : String)
deriving DecidableEq, Repr

/-- `load_data`: read the persisted source, convert and re-year the
timestamps, sort by timestamp; `FileNotFoundError` becomes the
source-not-found signal, every other exception the load-failed signal
with the exception text. -/
def load_data (src : CsvSource) : LoadResult :=
  match src with
  | .missing =>
    .sourceNotFound "Fichier dataset_ssh.csv introuvable. Veuillez placer le fichier dans le dossier du projet."
  | .unreadable msg => .loadFailed msg
  | .table rows =>
    match toDatetimeAll rows with
    | .error m => .loadFailed (String.append "Erreur lors du chargement des donnees : " m)
    | .ok evs =>
      .ok (sortByTimestamp
        (evs.map (fun e => { e with timestamp := replaceYear 2024 e.timestamp })))

/-! ## Aggregation engine -/

/-- Distinct elements of `l` not yet `seen`, in order of first
appearance. -/
def dedupFirstAux {α : Type} [DecidableEq α] (seen : List α) : List α → List α
  | [] => []
  | x :: xs =>
    if x ∈ seen then dedupFirstAux seen xs
    else x :: dedupFirstAux (x :: seen) xs

/-- Distinct elements of a list in order of first appearance — the key
order of pandas hash-table based `value_counts` / of sorted `groupby`
keys before sorting. -/
def dedupFirst {α : Type} [DecidableEq α] (l : List α) : List α :=
  dedupFirstAux [] l

/-- One row per distinct element, in order of first appearance, with its
occurrence count: the unsorted result of `Series.value_counts`. -/
def tally {α : Type} [DecidableEq α] (l : List α) : List (α × Nat) :=
  (dedupFirst l).map (fun k => (k, l.count k))

/-- Stable descending insertion by count (`sort_values(ascending=False,
kind='stable')`, the sort `value_counts` applies): insert before the
first entry with a smaller-or-equal count. -/
def insDesc {α : Type} (p : α × Nat) : List (α × Nat) → List (α × Nat)
  | [] => [p]
  | q :: rest => if q.2 ≤ p.2 then p :: q :: rest else q :: insDesc p rest

/-- Stable sort of count rows, descending by count. -/
def sortDesc {α : Type} (l : List (α × Nat)) : List (α × Nat) :=
  l.foldr insDesc []

/-- The non-sentinel addresses of a record set, in input order: the
column `value_counts` is applied to
(`df[(df['SourceIP'] != 'None') & notna]['SourceIP']`). -/
def validIps (df : List LoadedEvent) : List String :=
  (df.map (fun e => e.sourceIP)).filter (fun ip => ip != "None")

/-- `get_top_ips`: drop the `'None'` sentinel rows, count occurrences per
address (`value_counts`: descending by count, ties in order of first
appearance), keep the first `n` rows (`head(n)`). -/
def get_top_ips (df : List LoadedEvent) (n : Nat) : List (String × Nat) :=
  (sortDesc (tally (validIps df))).take n

/-- `Timestamp.floor('H')`: zero the minute and second. -/
def floorHour (d : DateTime) : DateTime :=
  { d with minute := 0, second := 0 }

/-- Ascending insertion by key (keys here are distinct, so stability is
moot). -/
def insAscBy {α : Type} (f : α → Nat) (x : α) : List α → List α
  | [] => [x]
  | y :: rest => if f x ≤ f y then x :: y :: rest else y :: insAscBy f x rest

/-- Sort by a `Nat` key, ascending. -/
def sortAscBy {α : Type} (f : α → Nat) (l : List α) : List α :=
  l.foldr (insAscBy f) []

/-- The floored-to-hour timestamps of a record set, in input order (the
`Hour` column). -/
def hoursOf (df : List LoadedEvent) : List DateTime :=
  df.map (fun e => floorHour e.timestamp)

/-- `get_temporal_evolution`: floor every timestamp to its hour and count
events per hour (`groupby('Hour').size()`: one row per occurring hour,
keys sorted ascending, hours with no events absent). -/
def get_temporal_evolution (df : List LoadedEvent) : List (DateTime × Nat) :=
  (sortAscBy dtKey (dedupFirst (hoursOf df))).map
    (fun h => (h, (hoursOf df).count h))

/-- A valid IPv4 dotted quad: exactly four dot-separated groups of one to
three digits, each with numeric value at most 255.  (Used to state what
the extractor does "not" check; not part of the source.) -/
def isValidIPv4 (s : String) : Bool :=
  let parts := splitOnChar '.' s.data
  parts.length == 4 &&
    parts.all (fun p =>
      decide (1 ≤ p.length) && decide (p.length ≤ 3) &&
      p.all Char.isDigit && decide (digitsVal p ≤ 255))

/-! ## Concrete inputs used by the theorems -/

/-- A PAM authentication-failure line for root: it matches both the
generic E19 pattern and the root-specific E20 pattern. -/
def c1Line : String :=
  "Jun 14 12:00:03 host sshd[125]: pam_unix(sshd:auth): authentication failure; logname= uid=0 euid=0 tty=ssh ruser= rhost=10.0.0.7  user=root"

/-- The scenario line of the specification for C2. -/
def c2Line : String :=
  "Jun 14 12:00:01 host sshd[123]: Failed password for invalid user admin from 10.0.0.5 port 22 ssh2"

/-- A line containing `POSSIBLE BREAK-IN ATTEMPT` together with other
matching substrings (`Address ... maps to` context with a dotted quad). -/
def c3Line : String :=
  "Jun 14 12:00:07 host sshd[128]: reverse mapping failed - POSSIBLE BREAK-IN ATTEMPT! Connection closed by 1.2.3.4"

/-- A relevant line with a trailing space. -/
def c9Line : String :=
  "Jun 14 12:00:02 host sshd[124]: Connection closed by 10.0.0.9 "

/-- The same line as stored in `Raw_Message` (`str.strip` applied). -/
def c9Stripped : String :=
  "Jun 14 12:00:02 host sshd[124]: Connection closed by 10.0.0.9"

/-- The record produced for `c9Line`. -/
def c9Event : Event :=
  { timestamp := "Jun 14 12:00:02", eventId := "E2", sourceIP := "10.0.0.9",
    user := "None", rawMessage := c9Stripped }

/-- A line whose dotted quad has out-of-range groups. -/
def c10LineA : String :=
  "Jun 14 12:00:04 host sshd[126]: Failed password for root from 999.999.999.999 port 22 ssh2"

/-- A line whose dotted quad is embedded in a longer digit sequence. -/
def c10LineB : String :=
  "Jun 14 12:00:05 host sshd[127]: Connection closed by 12345.6.7.8"

/-- Seventeen stored rows sharing one timestamp, with users `u0` … `u16`
recording the original row order (17 rows: the smallest top-level range on
which the quicksort partition step of the default sort runs). -/
def c4TieRows : List Event :=
  (List.range 17).map (fun i =>
    { timestamp := "Jun 14 12:00:00", eventId := "E2", sourceIP := "None",
      user := String.append "u" (toString i), rawMessage := "r" })

/-- The users of a successful load, in loaded order. -/
def loadedUsers : LoadResult → List String
  | .ok evs => evs.map (fun e => e.user)
  | _ => []

/-- The timestamps of a successful load, in loaded order. -/
def loadedTimestamps : LoadResult → List DateTime
  | .ok evs => evs.map (fun e => e.timestamp)
  | _ => []

/-- Seventeen stored rows with scrambled, pairwise-distinct timestamps. -/
def c4MixedRows : List Event :=
  (List.range 17).map (fun i =>
    { timestamp := String.append "Jun 14 12:00:"
        (String.append (toString ((i * 7) % 17 / 10)) (toString ((i * 7) % 17 % 10))),
      eventId := "E2", sourceIP := "None",
      user := String.append "u" (toString i), rawMessage := "r" })

/-- A single well-formed stored row. -/
def c4OneRow : Event :=
  { timestamp := "Jun 14 12:00:00", eventId := "E2", sourceIP := "None",
    user := "u", rawMessage := "r" }

/-- The record `c4OneRow` loads to. -/
def c4OneLoaded : LoadedEvent :=
  { timestamp := ⟨2024, 6, 14, 12, 0, 0⟩, eventId := "E2", sourceIP := "None",
    user := "u", rawMessage := "r" }

/-- A stored row whose timestamp does not match `%b %d %H:%M:%S`. -/
def c6BadRow : Event :=
  { timestamp := "2024-06-14 12:00:00", eventId := "E2", sourceIP := "None",
    user := "u", rawMessage := "r" }

/-- A record set with a tie on counts: `2.2.2.2` twice, `1.1.1.1` and
`3.3.3.3` once each, plus a sentinel row. -/
def c5df : List LoadedEvent :=
  [{ timestamp := ⟨2024, 6, 14, 1, 0, 0⟩, eventId := "E2", sourceIP := "1.1.1.1",
     user := "x", rawMessage := "" },
   { timestamp := ⟨2024, 6, 14, 1, 0, 0⟩, eventId := "E2", sourceIP := "None",
     user := "x", rawMessage := "" },
   { timestamp := ⟨2024, 6, 14, 1, 0, 0⟩, eventId := "E2", sourceIP := "2.2.2.2",
     user := "x", rawMessage := "" },
   { timestamp := ⟨2024, 6, 14, 1, 0, 0⟩, eventId := "E2", sourceIP := "2.2.2.2",
     user := "x", rawMessage := "" },
   { timestamp := ⟨2024, 6, 14, 1, 0, 0⟩, eventId := "E2", sourceIP := "3.3.3.3",
     user := "x", rawMessage := "" }]

/-- Did `load_data` signal the load-failed condition? -/
def isLoadFailed : LoadResult → Bool
  | .loadFailed _ => true
  | _ => false

/-- Events at 10:15, 10:45 and 11:05 of one day. -/
def c8df : List LoadedEvent :=
  [{ timestamp := ⟨2024, 6, 14, 10, 15, 0⟩, eventId := "E2", sourceIP := "None",
     user := "x", rawMessage := "" },
   { timestamp := ⟨2024, 6, 14, 10, 45, 0⟩, eventId := "E2", sourceIP := "None",
     user := "x", rawMessage := "" },
   { timestamp := ⟨2024, 6, 14, 11, 5, 0⟩, eventId := "E2", sourceIP := "None",
     user := "x", rawMessage := "" }]

/-! ## Lemmas -/

theorem litPrefix_ci_of_exact :
    ∀ (p s : List Char), litPrefix (fun a b => a == b) p s = true →
      litPrefix chEqCI p s = true := by
  intro p
  induction p with
  | nil => intro s _; rfl
  | cons a as ih =>
    intro s h
    cases s with
    | nil => exact absurd h (by simp [litPrefix])
    | cons c cs =>
      simp only [litPrefix, Bool.and_eq_true] at h ⊢
      obtain ⟨h1, h2⟩ := h
      refine ⟨?_, ih cs h2⟩
      have hac : a = c := by simpa using h1
      subst hac
      simp [chEqCI]

theorem litAt_of_litAtExact (pat s : List Char) (i : Nat)
    (h : litAtExact pat s i = true) : litAt pat s i = true :=
  litPrefix_ci_of_exact pat (s.drop i) h

theorem containsCI_of_containsExact (pat s : List Char)
    (h : containsExact pat s = true) : containsCI pat s = true := by
  simp only [containsExact, List.any_eq_true] at h
  obtain ⟨i, hi, hl⟩ := h
  simp only [containsCI, List.any_eq_true]
  exact ⟨i, hi, litAt_of_litAtExact pat s i hl⟩

/-- Any match of the E20 pattern contains a match of the E19 pattern (the
E20 regex is the E19 literal followed by `.*root`), so E19 — checked
first — fires whenever E20 would. -/
theorem matchE19_of_matchE20 (s : List Char) (h : matchE20 s = true) :
    matchE19 s = true := by
  simp only [matchE20, List.any_eq_true, Bool.and_eq_true] at h
  obtain ⟨i, hi, hlit, _⟩ := h
  simp only [matchE19, containsCI, List.any_eq_true]
  exact ⟨i, hi, hlit⟩

/-- The classifier can never return `"E20"`: the E19 rule precedes the
E20 rule in the ordered rule table and matches whenever E20 does. -/
theorem classify_ne_E20 (s : List Char) : classify s ≠ "E20" := by
  intro h
  unfold classify at h
  by_cases h27 : matchE27 s = true
  · rw [if_pos h27] at h; exact absurd h (by decide)
  rw [if_neg h27] at h
  by_cases h13 : matchE13 s = true
  · rw [if_pos h13] at h; exact absurd h (by decide)
  rw [if_neg h13] at h
  by_cases h12 : matchE12 s = true
  · rw [if_pos h12] at h; exact absurd h (by decide)
  rw [if_neg h12] at h
  by_cases h21 : matchE21 s = true
  · rw [if_pos h21] at h; exact absurd h (by decide)
  rw [if_neg h21] at h
  by_cases h19 : matchE19 s = true
  · rw [if_pos h19] at h; exact absurd h (by decide)
  rw [if_neg h19] at h
  by_cases h20 : matchE20 s = true
  · exact absurd (matchE19_of_matchE20 s h20) h19
  rw [if_neg h20] at h
  by_cases h10 : matchE10 s = true
  · rw [if_pos h10] at h; exact absurd h (by decide)
  rw [if_neg h10] at h
  by_cases h9 : matchE9 s = true
  · rw [if_pos h9] at h; exact absurd h (by decide)
  rw [if_neg h9] at h
  by_cases h2 : matchE2 s = true
  · rw [if_pos h2] at h; exact absurd h (by decide)
  rw [if_neg h2] at h
  by_cases h5 : matchE5 s = true
  · rw [if_pos h5] at h; exact absurd h (by decide)
  rw [if_neg h5] at h
  by_cases h17 : matchE17 s = true
  · rw [if_pos h17] at h; exact absurd h (by decide)
  rw [if_neg h17] at h
  by_cases h18 : matchE18 s = true
  · rw [if_pos h18] at h; exact absurd h (by decide)
  rw [if_neg h18] at h
  by_cases h24 : matchE24 s = true
  · rw [if_pos h24] at h; exact absurd h (by decide)
  rw [if_neg h24] at h
  by_cases h14 : matchE14 s = true
  · rw [if_pos h14] at h; exact absurd h (by decide)
  rw [if_neg h14] at h
  exact absurd h (by decide)

theorem parseLine_none_of_irrelevant (line : List Char)
    (h : (pyStrip line).isEmpty = true ∨ containsCI (str "sshd") line = false) :
    parseLine line = none := by
  unfold parseLine
  have hc : ((pyStrip line).isEmpty || !containsCI (str "sshd") line) = true := by
    rcases h with h | h
    · rw [h, Bool.true_or]
    · rw [h, Bool.not_false, Bool.or_true]
  rw [if_pos hc]

theorem parseLine_rawMessage_eq_strip (line : List Char) (e : Event)
    (h : parseLine line = some e) : e.rawMessage = String.mk (pyStrip line) := by
  unfold parseLine at h
  by_cases hc : ((pyStrip line).isEmpty || !containsCI (str "sshd") line) = true
  · rw [if_pos hc] at h
    exact Option.noConfusion h
  · rw [if_neg hc] at h
    cases Option.some.inj h
    rfl

theorem mem_dedupFirstAux {α : Type} [DecidableEq α] :
    ∀ (l seen : List α) (y : α),
      y ∈ dedupFirstAux seen l ↔ y ∈ l ∧ y ∉ seen := by
  intro l
  induction l with
  | nil => intro seen y; simp [dedupFirstAux]
  | cons x xs ih =>
    intro seen y
    unfold dedupFirstAux
    by_cases hx : x ∈ seen
    · rw [if_pos hx, ih]
      constructor
      · rintro ⟨h1, h2⟩
        exact ⟨List.mem_cons_of_mem _ h1, h2⟩
      · rintro ⟨h1, h2⟩
        rcases List.mem_cons.1 h1 with rfl | h3
        · exact absurd hx h2
        · exact ⟨h3, h2⟩
    · rw [if_neg hx]
      constructor
      · intro h
        rcases List.mem_cons.1 h with rfl | h2
        · exact ⟨List.mem_cons_self _ _, hx⟩
        · obtain ⟨h3, h4⟩ := (ih (x :: seen) y).1 h2
          exact ⟨List.mem_cons_of_mem _ h3,
            fun hy => h4 (List.mem_cons_of_mem _ hy)⟩
      · rintro ⟨h1, h2⟩
        rcases List.mem_cons.1 h1 with rfl | h3
        · exact List.mem_cons_self _ _
        · by_cases hyx : y = x
          · subst hyx; exact List.mem_cons_self _ _
          · refine List.mem_cons_of_mem _ ((ih (x :: seen) y).2 ⟨h3, ?_⟩)
            intro hy
            rcases List.mem_cons.1 hy with h | h
            · exact hyx h
            · exact h2 h

theorem mem_dedupFirst {α : Type} [DecidableEq α] (l : List α) (y : α) :
    y ∈ dedupFirst l ↔ y ∈ l := by
  rw [dedupFirst, mem_dedupFirstAux]
  simp

/-- The deduplicated keys appear in order of first occurrence in `l`. -/
theorem dedupFirstAux_pairwise_indexOf {α : Type} [DecidableEq α] :
    ∀ (l seen : List α),
      (dedupFirstAux seen l).Pairwise (fun a b => l.indexOf a < l.indexOf b) := by
  intro l
  induction l with
  | nil => intro seen; simp [dedupFirstAux]
  | cons x xs ih =>
    intro seen
    unfold dedupFirstAux
    by_cases hx : x ∈ seen
    · rw [if_pos hx]
      refine (ih seen).imp_of_mem ?_
      intro a b ha hb hab
      have hane : a ≠ x := fun h =>
        ((mem_dedupFirstAux xs seen a).1 ha).2 (h ▸ hx)
      have hbne : b ≠ x := fun h =>
        ((mem_dedupFirstAux xs seen b).1 hb).2 (h ▸ hx)
      rw [List.indexOf_cons_ne _ (fun h => hane h.symm),
        List.indexOf_cons_ne _ (fun h => hbne h.symm)]
      exact Nat.succ_lt_succ hab
    · rw [if_neg hx]
      refine List.Pairwise.cons ?_ ?_
      · intro b hb
        have hbne : b ≠ x := fun h =>
          ((mem_dedupFirstAux xs (x :: seen) b).1 hb).2
            (h ▸ List.mem_cons_self _ _)
        rw [List.indexOf_cons_self,
          List.indexOf_cons_ne _ (fun h => hbne h.symm)]
        exact Nat.succ_pos _
      · refine (ih (x :: seen)).imp_of_mem ?_
        intro a b ha hb hab
        have hane : a ≠ x := fun h =>
          ((mem_dedupFirstAux xs (x :: seen) a).1 ha).2
            (h ▸ List.mem_cons_self _ _)
        have hbne : b ≠ x := fun h =>
          ((mem_dedupFirstAux xs (x :: seen) b).1 hb).2
            (h ▸ List.mem_cons_self _ _)
        rw [List.indexOf_cons_ne _ (fun h => hane h.symm),
          List.indexOf_cons_ne _ (fun h => hbne h.symm)]
        exact Nat.succ_lt_succ hab

theorem dedupFirst_pairwise_indexOf {α : Type} [DecidableEq α] (l : List α) :
    (dedupFirst l).Pairwise (fun a b => l.indexOf a < l.indexOf b) :=
  dedupFirstAux_pairwise_indexOf l []

theorem mem_insDesc {α : Type} (p : α × Nat) :
    ∀ (l : List (α × Nat)) (y : α × Nat), y ∈ insDesc p l ↔ y = p ∨ y ∈ l := by
  intro l
  induction l with
  | nil => intro y; simp [insDesc]
  | cons q rest ih =>
    intro y
    unfold insDesc
    by_cases h : q.2 ≤ p.2
    · rw [if_pos h]
      simp [List.mem_cons]
    · rw [if_neg h]
      simp only [List.mem_cons, ih]
      tauto

theorem mem_sortDesc {α : Type} :
    ∀ (l : List (α × Nat)) (y : α × Nat), y ∈ sortDesc l ↔ y ∈ l := by
  intro l
  induction l with
  | nil => intro y; simp [sortDesc]
  | cons a rest ih =>
    intro y
    show y ∈ insDesc a (sortDesc rest) ↔ _
    rw [mem_insDesc]
    simp only [List.mem_cons, ih]

/-- Inserting into a count-descending list that is stable with respect to
`R` — provided the inserted row is `R`-before everything present — keeps
it so: rows are pairwise either strictly descending in count or tied with
`R` deciding the order. -/
theorem insDesc_pairwise {α : Type} {R : α × Nat → α × Nat → Prop}
    (p : α × Nat) :
    ∀ l : List (α × Nat),
      l.Pairwise (fun x y => y.2 < x.2 ∨ (x.2 = y.2 ∧ R x y)) →
      (∀ q ∈ l, R p q) →
      (insDesc p l).Pairwise (fun x y => y.2 < x.2 ∨ (x.2 = y.2 ∧ R x y)) := by
  intro l
  induction l with
  | nil => intro _ _; simp [insDesc]
  | cons q rest ih =>
    intro hl hp
    obtain ⟨hq_rest, hrest⟩ := List.pairwise_cons.1 hl
    unfold insDesc
    by_cases h : q.2 ≤ p.2
    · rw [if_pos h]
      refine List.Pairwise.cons ?_ hl
      intro y hy
      rcases List.mem_cons.1 hy with rfl | hyr
      · rcases Nat.lt_or_ge y.2 p.2 with hlt | hge
        · exact Or.inl hlt
        · exact Or.inr ⟨Nat.le_antisymm hge h, hp y (List.mem_cons_self _ _)⟩
      · have hqy := hq_rest y hyr
        rcases hqy with h1 | ⟨h2, _⟩
        · exact Or.inl (Nat.lt_of_lt_of_le h1 h)
        · rcases Nat.lt_or_ge q.2 p.2 with hlt | hge
          · exact Or.inl (h2 ▸ hlt)
          · have hqp : q.2 = p.2 := Nat.le_antisymm h hge
            exact Or.inr ⟨hqp.symm.trans h2,
              hp y (List.mem_cons_of_mem _ hyr)⟩
    · rw [if_neg h]
      have hpq : p.2 < q.2 := Nat.lt_of_not_le h
      refine List.Pairwise.cons ?_
        (ih hrest (fun r hr => hp r (List.mem_cons_of_mem _ hr)))
      intro y hy
      rcases (mem_insDesc p _ y).1 hy with rfl | hyr
      · exact Or.inl hpq
      · exact hq_rest y hyr

/-- The stable descending sort of rows that are pairwise `R`-ordered is
pairwise strictly descending in count or tied with `R` preserved. -/
theorem sortDesc_pairwise {α : Type} {R : α × Nat → α × Nat → Prop} :
    ∀ l : List (α × Nat), l.Pairwise R →
      (sortDesc l).Pairwise (fun x y => y.2 < x.2 ∨ (x.2 = y.2 ∧ R x y)) := by
  intro l
  induction l with
  | nil => intro _; simp [sortDesc]
  | cons a rest ih =>
    intro hl
    obtain ⟨ha, hrest⟩ := List.pairwise_cons.1 hl
    show (insDesc a (sortDesc rest)).Pairwise _
    exact insDesc_pairwise a (sortDesc rest) (ih hrest)
      (fun q hq => ha q ((mem_sortDesc rest q).1 hq))

/-- The count rows of `value_counts` before sorting are in order of first
occurrence of their key. -/
theorem tally_pairwise_indexOf {α : Type} [DecidableEq α] (l : List α) :
    (tally l).Pairwise (fun p q => l.indexOf p.1 < l.indexOf q.1) := by
  unfold tally
  refine List.Pairwise.map _ ?_ (dedupFirst_pairwise_indexOf l)
  intro a b hab
  simpa using hab

theorem mem_insAscBy {α : Type} (f : α → Nat) (x : α) :
    ∀ (l : List α) (y : α), y ∈ insAscBy f x l ↔ y = x ∨ y ∈ l := by
  intro l
  induction l with
  | nil => intro y; simp [insAscBy]
  | cons q rest ih =>
    intro y
    unfold insAscBy
    by_cases h : f x ≤ f q
    · rw [if_pos h]; simp [List.mem_cons]
    · rw [if_neg h]
      simp only [List.mem_cons, ih]
      tauto

theorem mem_sortAscBy {α : Type} (f : α → Nat) :
    ∀ (l : List α) (y : α), y ∈ sortAscBy f l ↔ y ∈ l := by
  intro l
  induction l with
  | nil => intro y; simp [sortAscBy]
  | cons a rest ih =>
    intro y
    show y ∈ insAscBy f a (sortAscBy f rest) ↔ _
    rw [mem_insAscBy]
    simp only [List.mem_cons, ih]

/-- Everything the sort emits was one of the loaded records. -/
theorem mem_of_mem_sortByTimestamp (evs : List LoadedEvent) (e : LoadedEvent)
    (h : e ∈ sortByTimestamp evs) : e ∈ evs := by
  unfold sortByTimestamp at h
  obtain ⟨i, _, hget⟩ := List.mem_filterMap.1 h
  exact List.mem_iff_getElem?.2 ⟨i, hget⟩

/-- If some row's stored timestamp is unparseable, the column conversion
raises. -/
theorem toDatetimeAll_error_of_bad :
    ∀ rows : List Event,
      (∃ r ∈ rows, parseStoredTimestamp r.timestamp.data = none) →
      ∃ m, toDatetimeAll rows = .error m := by
  intro rows h
  induction rows with
  | nil =>
    obtain ⟨r, hr, _⟩ := h
    exact absurd hr (List.not_mem_nil r)
  | cons a rs ih =>
    obtain ⟨r, hr, hbad⟩ := h
    cases hpa : parseStoredTimestamp a.timestamp.data with
    | none =>
      refine ⟨String.append "time data does not match format: " a.timestamp, ?_⟩
      simp only [toDatetimeAll, hpa]
    | some dt =>
      rcases List.mem_cons.1 hr with rfl | hr2
      · rw [hpa] at hbad
        exact Option.noConfusion hbad
      · obtain ⟨m, hm⟩ := ih ⟨r, hr2, hbad⟩
        refine ⟨m, ?_⟩
        simp only [toDatetimeAll, hpa, hm]

/-- Every record a successful load returns carries year 2024. -/
theorem load_data_year_2024 :
    ∀ (src : CsvSource) (evs : List LoadedEvent),
      load_data src = .ok evs → ∀ e ∈ evs, e.timestamp.year = 2024 := by
  intro src evs h e he
  cases src with
  | missing => exact LoadResult.noConfusion h
  | unreadable m => exact LoadResult.noConfusion h
  | table rows =>
    cases hta : toDatetimeAll rows with
    | error m =>
      simp only [load_data, hta] at h
      exact LoadResult.noConfusion h
    | ok evs0 =>
      simp only [load_data, hta] at h
      cases LoadResult.ok.inj h
      obtain ⟨e0, _, rfl⟩ := List.mem_map.1 (mem_of_mem_sortByTimestamp _ e he)
      rfl

/-! ## Claim theorems -/

set_option maxRecDepth 400000

/-- C1: the code places the generic E19 rule before the root-specific E20
rule, so for every line the classifier never returns the root-specific
code E20 (the rule is unreachable), and on a concrete PAM
authentication-failure line for root it returns the generic code E19 —
against the specification, which requires the root-specific code to win. -/
theorem C1_e20_unreachable_generic_wins :
    (∀ s : List Char, (classify s == "E20") = false) ∧
    classify (str c1Line) = "E19" := by
  constructor
  · intro s
    exact beq_eq_false_iff_ne.mpr (classify_ne_E20 s)
  · decide

/-- C2 counterexample: the specification's scenario line is classified
`E13` (the `Invalid user ... from` rule fires first), not the
failed-password-for-invalid-user code `E10`. -/
theorem C2_counterexample :
    (parse_ssh_log c2Line).map Event.eventId = ["E13"] ∧
    (("E13" : String) == "E10") = false := by
  constructor <;> decide

/-- C2 amended: parsing the scenario line produces exactly one record
with event code `E13` (the invalid-user rule, which precedes the
failed-password rules in the ordered rule table), source address
`10.0.0.5` and user `admin`. -/
theorem C2_scenario_record :
    parse_ssh_log c2Line =
      [{ timestamp := "Jun 14 12:00:01", eventId := "E13",
         sourceIP := "10.0.0.5", user := "admin", rawMessage := c2Line }] := by
  decide

/-- C3: every line containing the substring `POSSIBLE BREAK-IN ATTEMPT`
is classified `E27`, whatever else matches: the E27 rule is the first
rule of the ordered table. -/
theorem C3_breakin_always_E27 :
    ∀ s : List Char,
      containsExact (str "POSSIBLE BREAK-IN ATTEMPT") s = true →
      classify s = "E27" := by
  intro s h
  have h27 : matchE27 s = true := containsCI_of_containsExact _ s h
  unfold classify
  rw [if_pos h27]

/-- C3 witness: `C3_breakin_always_E27` applied to a concrete line that
also matches the connection-closed pattern. -/
theorem C3_witness :
    containsExact (str "POSSIBLE BREAK-IN ATTEMPT") (str c3Line) = true ∧
    classify (str c3Line) = "E27" :=
  ⟨by decide, C3_breakin_always_E27 (str c3Line) (by decide)⟩

/-- C7: a line that is blank after stripping or lacks the substring
`sshd` (case-insensitively) produces no record; a blob all of whose lines
are irrelevant — in particular the empty blob — parses to the empty
record list, not an error. -/
theorem C7_irrelevant_lines_skipped :
    (∀ line : List Char,
        (pyStrip line).isEmpty = true ∨ containsCI (str "sshd") line = false →
        parseLine line = none) ∧
    (∀ content : String,
        (∀ line ∈ splitLines content.data,
            (pyStrip line).isEmpty = true ∨ containsCI (str "sshd") line = false) →
        parse_ssh_log content = []) ∧
    parse_ssh_log "" = [] := by
  refine ⟨parseLine_none_of_irrelevant, ?_, by decide⟩
  intro content h
  unfold parse_ssh_log
  rw [List.filterMap_eq_nil_iff]
  intro line hl
  exact parseLine_none_of_irrelevant line (h line hl)

/-- C7 witness: `C7_irrelevant_lines_skipped` applied to a non-daemon
line and to a two-line blob of blanks. -/
theorem C7_witness :
    parseLine (str "Jun 14 12:00:08 host cron[999]: session opened") = none ∧
    parse_ssh_log "\n   \n" = [] :=
  ⟨C7_irrelevant_lines_skipped.1 _ (Or.inr (by decide)),
   C7_irrelevant_lines_skipped.2.1 "\n   \n" (by decide)⟩

/-- C9 counterexample: on a relevant line with a trailing space the
stored `Raw_Message` is the stripped line, which differs from the
original line text. -/
theorem C9_counterexample :
    (parse_ssh_log c9Line).map Event.rawMessage = [c9Stripped] ∧
    (c9Stripped == c9Line) = false := by
  constructor <;> decide

/-- C9 amended: for every line for which the parser produces a record,
the record's `Raw_Message` equals the line with leading and trailing
whitespace removed (`line.strip()`), hence equals the original line
verbatim only when the line has no surrounding whitespace. -/
theorem C9_raw_message_is_stripped_line :
    ∀ (line : List Char) (e : Event),
      parseLine line = some e → e.rawMessage = String.mk (pyStrip line) :=
  parseLine_rawMessage_eq_strip

/-- C9 witness: `C9_raw_message_is_stripped_line` applied to the
trailing-space line. -/
theorem C9_witness : c9Event.rawMessage = String.mk (pyStrip (str c9Line)) :=
  C9_raw_message_is_stripped_line (str c9Line) c9Event (by decide)

/-- C10: the address extractor stores the first dotted-quad regex match
without validation: a line with `999.999.999.999` stores that out-of-range
string, and a line with `12345.6.7.8` stores the embedded match
`345.6.7.8`; neither stored value is a valid IPv4 address, and neither is
the `None` sentinel. -/
theorem C10_ip_stored_unvalidated :
    (parse_ssh_log c10LineA).map Event.sourceIP = ["999.999.999.999"] ∧
    isValidIPv4 "999.999.999.999" = false ∧
    (parse_ssh_log c10LineB).map Event.sourceIP = ["345.6.7.8"] ∧
    isValidIPv4 "345.6.7.8" = false ∧
    (("999.999.999.999" : String) == "None") = false ∧
    (("345.6.7.8" : String) == "None") = false := by
  refine ⟨by decide, by decide, by decide, by decide, by decide, by decide⟩

/-- C4 counterexample: seventeen rows sharing one timestamp are loaded in
the order u0, u14, u13, …, not in their original row order — the default
`sort_values` quicksort is not stable, refuting the claim that records
with equal timestamps keep their original row order. -/
theorem C4_counterexample :
    loadedUsers (load_data (.table c4TieRows)) =
      ["u0", "u14", "u13", "u12", "u11", "u10", "u9", "u15", "u8", "u6",
       "u5", "u4", "u3", "u2", "u1", "u7", "u16"] ∧
    loadedTimestamps (load_data (.table c4TieRows)) =
      List.replicate 17 ⟨2024, 6, 14, 12, 0, 0⟩ ∧
    c4TieRows.map Event.user =
      ["u0", "u1", "u2", "u3", "u4", "u5", "u6", "u7", "u8", "u9", "u10",
       "u11", "u12", "u13", "u14", "u15", "u16"] ∧
    ((["u0", "u14", "u13", "u12", "u11", "u10", "u9", "u15", "u8", "u6",
       "u5", "u4", "u3", "u2", "u1", "u7", "u16"] : List String) ==
      ["u0", "u1", "u2", "u3", "u4", "u5", "u6", "u7", "u8", "u9", "u10",
       "u11", "u12", "u13", "u14", "u15", "u16"]) = false := by
  refine ⟨by decide, by decide, by decide, by decide⟩

/-- C4 amended: the loader assigns the single configured reference year
2024 uniformly to every loaded record and sorts ascending by timestamp
with pandas' default quicksort; the sort is not stable, so records with
equal timestamps need not keep their original row order.  Proved: every
successfully loaded record has year 2024, and a concrete seventeen-row
set with scrambled distinct timestamps is returned sorted ascending. -/
theorem C4_year_uniform_sort_ascending :
    (∀ (src : CsvSource) (evs : List LoadedEvent),
        load_data src = .ok evs → ∀ e ∈ evs, e.timestamp.year = 2024) ∧
    (loadedTimestamps (load_data (.table c4MixedRows))).Pairwise
      (fun a b => dtKey a ≤ dtKey b) ∧
    (loadedTimestamps (load_data (.table c4MixedRows))).length = 17 := by
  refine ⟨load_data_year_2024, by decide, by decide⟩

/-- C4 witness: `C4_year_uniform_sort_ascending` applied to a one-row
source. -/
theorem C4_witness : c4OneLoaded.timestamp.year = 2024 :=
  C4_year_uniform_sort_ascending.1 (.table [c4OneRow]) [c4OneLoaded]
    (by decide) c4OneLoaded (by decide)

/-- C6: a missing source is signalled as the source-not-found condition,
a structurally unreadable source as the load-failed condition with the
diagnostic message, and a readable table containing a row with an
unparseable timestamp as the load-failed condition; all are ordinary
return values of the total function `load_data`, never an exception. -/
theorem C6_load_failure_modes :
    load_data .missing =
      .sourceNotFound "Fichier dataset_ssh.csv introuvable. Veuillez placer le fichier dans le dossier du projet." ∧
    (∀ m : String, load_data (.unreadable m) = .loadFailed m) ∧
    (∀ rows : List Event,
        (∃ r ∈ rows, parseStoredTimestamp r.timestamp.data = none) →
        isLoadFailed (load_data (.table rows)) = true) := by
  refine ⟨rfl, fun m => rfl, ?_⟩
  intro rows h
  obtain ⟨m, hm⟩ := toDatetimeAll_error_of_bad rows h
  simp only [load_data, hm, isLoadFailed]

/-- C6 witness: `C6_load_failure_modes` applied to a table holding one
row with an unparseable timestamp. -/
theorem C6_witness : isLoadFailed (load_data (.table [c6BadRow])) = true :=
  C6_load_failure_modes.2.2 [c6BadRow] ⟨c6BadRow, by decide, by decide⟩

/-- C5: for every record set and every `n`, the top-`n` ranking contains
no `'None'` sentinel row, has at most `n` rows, is sorted descending by
count, and breaks count ties by order of first occurrence of the address
in the input column. -/
theorem C5_top_addresses_props :
    ∀ (df : List LoadedEvent) (n : Nat),
      (∀ p ∈ get_top_ips df n, (p.1 == "None") = false) ∧
      (get_top_ips df n).length ≤ n ∧
      (get_top_ips df n).Pairwise (fun p q => q.2 ≤ p.2) ∧
      (get_top_ips df n).Pairwise (fun p q =>
        p.2 = q.2 → (validIps df).indexOf p.1 < (validIps df).indexOf q.1) := by
  intro df n
  have hpair := sortDesc_pairwise (tally (validIps df))
    (tally_pairwise_indexOf (validIps df))
  refine ⟨?_, ?_, ?_, ?_⟩
  · intro p hp
    have hp1 : p ∈ sortDesc (tally (validIps df)) :=
      (List.take_sublist _ _).subset hp
    have hp2 : p ∈ tally (validIps df) := (mem_sortDesc _ p).1 hp1
    obtain ⟨k, hk, rfl⟩ := List.mem_map.1 hp2
    have hkv : k ∈ validIps df := (mem_dedupFirst _ k).1 hk
    have hne := (List.mem_filter.1 hkv).2
    exact beq_eq_false_iff_ne.mpr (bne_iff_ne.mp hne)
  · exact le_trans (le_of_eq (List.length_take _ _)) (Nat.min_le_left _ _)
  · have h1 : (sortDesc (tally (validIps df))).Pairwise
        (fun p q => q.2 ≤ p.2) := by
      refine hpair.imp ?_
      intro a b hab
      rcases hab with h | ⟨h, _⟩
      · exact Nat.le_of_lt h
      · exact Nat.le_of_eq h.symm
    exact h1.take
  · have h1 : (sortDesc (tally (validIps df))).Pairwise (fun p q =>
        p.2 = q.2 → (validIps df).indexOf p.1 < (validIps df).indexOf q.1) := by
      refine hpair.imp ?_
      intro a b hab
      rcases hab with h | ⟨_, h⟩
      · intro heq
        exact absurd (heq ▸ h) (Nat.lt_irrefl _)
      · intro _
        exact h
    exact h1.take

/-- C5 witness: `C5_top_addresses_props` applied to a five-row record set
with a sentinel row and a count tie, at `n = 2`. -/
theorem C5_witness :
    (("2.2.2.2" : String) == "None") = false ∧
    (get_top_ips c5df 2).length ≤ 2 :=
  ⟨(C5_top_addresses_props c5df 2).1 ("2.2.2.2", 2) (by decide),
   (C5_top_addresses_props c5df 2).2.1⟩

/-- C8: every bucket of the hourly evolution carries the exact number of
events whose timestamp floors to that hour and is nonempty, every event's
hour occurs as a bucket (so exactly the nonempty hours appear), and the
10:15/10:45/11:05 example yields the buckets (10:00, 2) and (11:00, 1). -/
theorem C8_hourly_buckets :
    (∀ df : List LoadedEvent,
      (∀ bc ∈ get_temporal_evolution df,
          bc.2 = (hoursOf df).count bc.1 ∧ 0 < bc.2) ∧
      (∀ e ∈ df, ∃ c, (floorHour e.timestamp, c) ∈ get_temporal_evolution df)) ∧
    get_temporal_evolution c8df =
      [(⟨2024, 6, 14, 10, 0, 0⟩, 2), (⟨2024, 6, 14, 11, 0, 0⟩, 1)] := by
  constructor
  · intro df
    constructor
    · intro bc hbc
      obtain ⟨h, hmem, rfl⟩ := List.mem_map.1 hbc
      refine ⟨rfl, ?_⟩
      have h1 : h ∈ dedupFirst (hoursOf df) := (mem_sortAscBy _ _ h).1 hmem
      have h2 : h ∈ hoursOf df := (mem_dedupFirst _ h).1 h1
      exact List.count_pos_iff.2 h2
    · intro e he
      refine ⟨(hoursOf df).count (floorHour e.timestamp), ?_⟩
      refine List.mem_map.2 ⟨floorHour e.timestamp, ?_, rfl⟩
      refine (mem_sortAscBy _ _ _).2 ((mem_dedupFirst _ _).2 ?_)
      exact List.mem_map.2 ⟨e, he, rfl⟩
  · decide

/-- C8 witness: `C8_hourly_buckets` applied to the example record set and
its 10:00 bucket. -/
theorem C8_witness :
    (0 : Nat) < 2 ∧
    (2 : Nat) = (hoursOf c8df).count ⟨2024, 6, 14, 10, 0, 0⟩ :=
  have h := (C8_hourly_buckets.1 c8df).1 (⟨2024, 6, 14, 10, 0, 0⟩, 2) (by decide)
  ⟨h.2, h.1⟩

end SSHMonitor
